import Mathlib

/-!
Verification of the Starter App Launcher's clipboard capture-and-storage
pipeline and batch favourite-launch orchestrator.

The Python sources are shallowly embedded:
* Python `str` values flowing through the clipboard pipeline are embedded as
  `List Char` (`Str`), with `pyStrip` modelling `str.strip()`.
* Timestamps are `Nat` milliseconds; `datetime.utcnow() - timedelta(...)`
  becomes truncated `Nat` subtraction (both clamp the comparison in the same
  way for the ranges compared here, because a negative Python cutoff and a
  `Nat` cutoff of `0` accept exactly the same rows).
* SQLite tables are lists of rows; `ORDER BY created_at` is
  `List.insertionSort`; SQL `DELETE`/`WHERE` are `List.filter`/`List.drop`.
* OS facilities (path existence, shortcut resolution, `ShellExecuteW`,
  `os.startfile`, `subprocess.Popen`) are oracles packaged in environment
  structures; a `Bool` result stands for "the call reported success /
  did not raise".
* Qt signals are modelled as explicit emission values returned by the
  functions that would emit them.
-/

namespace StarterApp

/-- Python `str` embedded as a list of characters (code points). -/
abbrev Str := List Char

/-- One side of Python `str.strip()`: drop leading whitespace. -/
def dropWs (s : Str) : Str := s.dropWhile fun c => c.isWhitespace

/-- Python `text.strip()`: remove leading and trailing whitespace. -/
def pyStrip (s : Str) : Str := ((dropWs s).reverse.dropWhile fun c => c.isWhitespace).reverse

/-- Debounce interval from `_debounce_timer.start(150)`, in milliseconds. -/
def debounceMs : Nat := 150

/-- Duplicate-suppression window from `check_hash_exists_in_hours(..., hours=3)`,
in milliseconds. -/
def dupWindowMs : Nat := 3 * 60 * 60 * 1000

/-- Retention age cap from `_apply_retention(max_days=30)`, in milliseconds. -/
def maxAgeMs : Nat := 30 * 24 * 60 * 60 * 1000

/-- A persisted row of the `clipboard_items` table (storage.py), with the
timestamp already in its parsed `Nat` form. `id` is omitted: rows are
identified structurally and the retention logic is modelled on row values. -/
structure Row where
  content : Str
  contentHash : Str
  createdAt : Nat
  sourceApp : Option Str
  isPinned : Bool
deriving DecidableEq, Repr

/-- Build the row inserted by `ClipboardStorage.add_text`. -/
def mkRow (hash : Str → Str) (content : Str) (now : Nat) : Row :=
  { content := content, contentHash := hash content, createdAt := now,
    sourceApp := none, isPinned := false }

/-- Ordering used by `ORDER BY created_at ASC`. -/
def rowLe (a b : Row) : Prop := a.createdAt ≤ b.createdAt

instance : DecidableRel rowLe := fun a b => Nat.decLe a.createdAt b.createdAt

instance : IsTotal Row rowLe := ⟨fun a b => Nat.le_total a.createdAt b.createdAt⟩

instance : IsTrans Row rowLe := ⟨fun _ _ _ => Nat.le_trans⟩

/-- Model of `ClipboardStorage.check_hash_exists_in_hours`: true iff some row has the
given hash and `created_at >= now - window`. -/
def check_hash_exists_in_hours (store : List Row) (contentHash : Str)
    (now window : Nat) : Bool :=
  store.any fun r => decide (r.contentHash = contentHash) && decide (now - window ≤ r.createdAt)

/-- Model of `ClipboardStorage._apply_retention`: if the row count exceeds `maxItems`,
delete the `count - maxItems` oldest rows (by `created_at ASC`); then delete
every row with `created_at < now - maxAge`. -/
def apply_retention (store : List Row) (now maxItems maxAge : Nat) : List Row :=
  let count := store.length
  let afterCount :=
    if maxItems < count then
      (store.insertionSort rowLe).drop (count - maxItems)
    else store
  afterCount.filter fun r => decide (now - maxAge ≤ r.createdAt)

/-- Model of `ClipboardStorage.add_text`: hash the content, insert the new row, then
apply retention with the hard-coded defaults `max_items=500`, `max_days=30`. -/
def add_text (hash : Str → Str) (store : List Row) (now : Nat) (content : Str) : List Row :=
  apply_retention (store ++ [mkRow hash content now]) now 500 maxAgeMs

/-- Rows whose `content` equals `c`. -/
def countContent (store : List Row) (c : Str) : Nat :=
  store.countP fun r => decide (r.content = c)

/-! ### Change Detector (clipboard_service.py) -/

/-- The `ClipboardService` state strings. -/
inductive SvcState
  | IDLE
  | RUNNING
  | PAUSED
deriving DecidableEq, Repr

/-- The mutable fields of `ClipboardService` that the lifecycle and capture
logic touch. `timer_deadline` is the absolute time at which the single-shot
debounce timer will fire (`none` = timer not running). -/
structure ClipboardService where
  state : SvcState
  pending_content : Option Str
  ignore_next : Bool
  timer_deadline : Option Nat
deriving DecidableEq, Repr

/-- Model of `ClipboardService._set_state`: update the state and emit
`clipboard_state_changed` only when the state actually changes.
The second component is the emitted signal payload, if any. -/
def set_state (svc : ClipboardService) (new : SvcState) :
    ClipboardService × Option SvcState :=
  if svc.state ≠ new then ({ svc with state := new }, some new)
  else (svc, none)

/-- Model of `ClipboardService.start_listening`: IDLE → RUNNING, otherwise no-op. -/
def start_listening (svc : ClipboardService) : ClipboardService × Option SvcState :=
  if svc.state = .IDLE then set_state svc .RUNNING
  else (svc, none)

/-- Model of `ClipboardService.stop_listening`: RUNNING/PAUSED → IDLE (stopping the
debounce timer), otherwise no-op. -/
def stop_listening (svc : ClipboardService) : ClipboardService × Option SvcState :=
  if svc.state = .RUNNING ∨ svc.state = .PAUSED then
    set_state { svc with timer_deadline := none } .IDLE
  else (svc, none)

/-- Model of `ClipboardService.pause`: RUNNING → PAUSED (stopping the debounce timer),
otherwise no-op. -/
def pause (svc : ClipboardService) : ClipboardService × Option SvcState :=
  if svc.state = .RUNNING then
    set_state { svc with timer_deadline := none } .PAUSED
  else (svc, none)

/-- Model of `ClipboardService.resume`: PAUSED → RUNNING, otherwise no-op. -/
def resume (svc : ClipboardService) : ClipboardService × Option SvcState :=
  if svc.state = .PAUSED then set_state svc .RUNNING
  else (svc, none)

/-- Detector plus the store it writes to. `inserts` records the contents of
the successful `storage.add_text` calls (each paired with an `item_added`
emission), most recent last. -/
structure PipeState where
  svc : ClipboardService
  store : List Row
  inserts : List Str
deriving DecidableEq, Repr

/-- Model of `ClipboardService._on_clipboard_changed`. `text` is the result of
`self._clipboard.text()` (`none` = the read raised or no clipboard).
Discards the event unless RUNNING; consumes the ignore-next flag; discards
empty/whitespace-only text and text longer than 10000 characters; otherwise
stashes the trimmed text and (re)starts the 150 ms debounce timer. -/
def on_clipboard_changed (st : PipeState) (now : Nat) (text : Option Str) : PipeState :=
  if st.svc.state ≠ .RUNNING then st
  else if st.svc.ignore_next then
    { st with svc := { st.svc with ignore_next := false } }
  else
    match text with
    | none => st
    | some t =>
      if t = [] ∨ pyStrip t = [] then st
      else if 10000 < t.length then st
      else
        { st with svc := { st.svc with
            pending_content := some (pyStrip t),
            timer_deadline := some (now + debounceMs) } }

/-- The storage half of `ClipboardService._process_clipboard_change`: given
the pending content, either discard it (no pending, or a row with the same
hash exists within the last 3 hours) or store it. Returns the new store and
the inserted content, if any (an insert is accompanied by `item_added`). -/
def process_pending (hash : Str → Str) (store : List Row) (now : Nat)
    (pending : Option Str) : List Row × Option Str :=
  match pending with
  | none => (store, none)
  | some c =>
    if c = [] then (store, none)
    else if check_hash_exists_in_hours store (hash c) now dupWindowMs then (store, none)
    else (add_text hash store now c, some c)

/-- The debounce timer firing (`_process_clipboard_change` as the single-shot
timer's slot): the pending content is consumed (it is cleared before the
duplicate check; falsy pending is left untouched by the early return) and the
timer is no longer scheduled. -/
def fire_timer (hash : Str → Str) (st : PipeState) (now : Nat) : PipeState :=
  let res := process_pending hash st.store now st.svc.pending_content
  { svc := { st.svc with
      pending_content :=
        match st.svc.pending_content with
        | none => none
        | some c => if c = [] then some c else none,
      timer_deadline := none },
    store := res.1,
    inserts := st.inserts ++ res.2.toList }

/-- One clipboard-change event at absolute time `e.1` carrying clipboard text
`e.2`. The event loop first fires the debounce timer if its deadline has been
reached, then runs the change handler. -/
def step_event (hash : Str → Str) (st : PipeState) (e : Nat × Option Str) : PipeState :=
  let st1 :=
    match st.svc.timer_deadline with
    | some dl => if dl ≤ e.1 then fire_timer hash st dl else st
    | none => st
  on_clipboard_changed st1 e.1 e.2

/-- Run a sequence of timed clipboard-change events. -/
def run_events (hash : Str → Str) (st : PipeState) (evs : List (Nat × Option Str)) : PipeState :=
  evs.foldl (step_event hash) st

/-- Let a still-scheduled debounce timer fire at its deadline (the quiet
period after a burst). -/
def flush_timer (hash : Str → Str) (st : PipeState) : PipeState :=
  match st.svc.timer_deadline with
  | some dl => fire_timer hash st dl
  | none => st

/-! ### Read side of the store: `list_recent` over raw SQLite rows -/

/-- A raw row as fetched by `list_recent`'s SELECT: `created_at` is the
persisted TEXT value (possibly malformed), `content`/`content_hash` may be
NULL, `is_pinned` is the stored INTEGER. -/
structure DbRow where
  id : String
  content : Option String
  content_hash : Option String
  created_at : String
  is_pinned : Nat
deriving DecidableEq, Repr

/-- The `ClipboardItem` as materialised by `list_recent` (models.py), with the
timestamp in parsed form. -/
structure ClipboardItem where
  id : String
  content : String
  content_hash : String
  created_at : Nat
  is_pinned : Bool
deriving DecidableEq, Repr

/-- Ordering `ORDER BY created_at DESC` over the stored TEXT values. -/
def rowDescLe (a b : DbRow) : Prop := b.created_at ≤ a.created_at

instance : DecidableRel rowDescLe := fun a b =>
  inferInstanceAs (Decidable (b.created_at ≤ a.created_at))

instance : IsTotal DbRow rowDescLe := ⟨fun a b => le_total b.created_at a.created_at⟩

instance : IsTrans DbRow rowDescLe := ⟨fun _ _ _ h1 h2 => le_trans h2 h1⟩

/-- The per-row conversion inside `list_recent`'s loop. `parse` stands for the
two-format timestamp parse (`datetime.fromisoformat` then `strptime`; `none`
iff both raise `ValueError`); an empty or unparsable `created_at` is replaced
by `datetime.utcnow()` (= `now`), NULL `content`/`content_hash` by `""`. The
enclosing `except` never fires for these total operations, so every fetched
row yields an item. -/
def convert_row (parse : String → Option Nat) (now : Nat) (r : DbRow) : ClipboardItem :=
  { id := r.id,
    content := r.content.getD "",
    content_hash := r.content_hash.getD "",
    created_at := if r.created_at = "" then now else (parse r.created_at).getD now,
    is_pinned := r.is_pinned ≠ 0 }

/-- Model of `ClipboardStorage.list_recent`: fetch newest-first with LIMIT, then
convert each fetched row. -/
def list_recent (parse : String → Option Nat) (now : Nat) (store : List DbRow)
    (limit : Nat) : List ClipboardItem :=
  ((store.insertionSort rowDescLe).take limit).map (convert_row parse now)

/-! ### Launch Orchestrator (launcher_service.py) -/

/-- The OS-facing calls `launch_app` makes, as an oracle. A `Bool` result is
"the call reported success" (`ShellExecuteW > 32`) or "the call did not raise"
(`os.startfile`). `resolve_lnk` already folds its internal failure handling:
it returns the original path when resolution fails. -/
structure LaunchEnv where
  path_exists : Str → Bool
  resolve_lnk : Str → Str
  shell_execute : Str → Bool
  startfile : Str → Bool

/-- The launch mechanisms `launch_app` can attempt. -/
inductive Mech
  | shellExecuteCall
  | startfileCall
deriving DecidableEq, Repr

/-- One launch attempt: mechanism, target, and whether it reported success. -/
structure Attempt where
  mech : Mech
  target : Str
  ok : Bool
deriving DecidableEq, Repr

/-- Model of `LauncherService.launch_app`: if the path is missing, resolve the shortcut
and (when the resolved target exists) try `ShellExecuteW` then `os.startfile`
on it; if the path exists, try `ShellExecuteW` then `os.startfile` on it
directly. Every failure is caught and folded into the Bool result; the list
records the attempts in order. (The source's final `except` fallback is
unreachable: every call inside the body already has its own handler.) -/
def launch_app (env : LaunchEnv) (lnk_path : Str) : Bool × List Attempt :=
  if env.path_exists lnk_path = false then
    let resolved := env.resolve_lnk lnk_path
    if resolved ≠ lnk_path ∧ env.path_exists resolved = true then
      if env.shell_execute resolved then
        (true, [⟨.shellExecuteCall, resolved, true⟩])
      else if env.startfile resolved then
        (true, [⟨.shellExecuteCall, resolved, false⟩, ⟨.startfileCall, resolved, true⟩])
      else
        (false, [⟨.shellExecuteCall, resolved, false⟩, ⟨.startfileCall, resolved, false⟩])
    else (false, [])
  else
    if env.shell_execute lnk_path then
      (true, [⟨.shellExecuteCall, lnk_path, true⟩])
    else if env.startfile lnk_path then
      (true, [⟨.shellExecuteCall, lnk_path, false⟩, ⟨.startfileCall, lnk_path, true⟩])
    else
      (false, [⟨.shellExecuteCall, lnk_path, false⟩, ⟨.startfileCall, lnk_path, false⟩])

/-- An "open" invocation performed by `launch_browser_urls`: a
`subprocess.Popen(args, shell=True)` call or an `os.startfile(target)` call. -/
inductive OpenCall
  | popenCall (args : List Str)
  | startfileCall (target : Str)
deriving DecidableEq, Repr

/-- Oracle for the OS calls of `launch_browser_urls`. `popen_ok args` is
"`subprocess.Popen(args, shell=True)` did not raise". -/
structure BrowserEnv where
  resolve_lnk : Str → Str
  path_exists : Str → Bool
  popen_ok : List Str → Bool
  startfile_ok : Str → Bool

/-- Test `exe_path.lower().endswith('.exe') or exe_path.lower().endswith('.lnk')`. -/
def ends_exe_or_lnk (s : Str) : Bool :=
  let low := s.map Char.toLower
  List.isSuffixOf ['.', 'e', 'x', 'e'] low || List.isSuffixOf ['.', 'l', 'n', 'k'] low

/-- Open each URL on its own (`Popen([url], shell=True)`), counting successes
and recording the calls. Models the per-URL loops of the invalid-resolution
path and of the browser-launch-failed fallback. -/
def open_urls_alone (env : BrowserEnv) (urls : List Str) (acc : Nat × List (OpenCall × Bool)) :
    Nat × List (OpenCall × Bool) :=
  urls.foldl
    (fun acc url =>
      let ok := env.popen_ok [url]
      ((if ok then acc.1 + 1 else acc.1), acc.2 ++ [(.popenCall [url], ok)]))
    acc

/-- Open each remaining URL by invoking the resolved browser executable with
the URL as argument (`Popen([exe_path, url], shell=True)`), falling back to
`os.startfile(url)` when that raises. Models the primary path's loop over
`urls[1:]`. -/
def open_urls_with_exe (env : BrowserEnv) (exe : Str) (urls : List Str)
    (acc : Nat × List (OpenCall × Bool)) : Nat × List (OpenCall × Bool) :=
  urls.foldl
    (fun acc url =>
      let ok := env.popen_ok [exe, url]
      if ok then (acc.1 + 1, acc.2 ++ [(.popenCall [exe, url], true)])
      else
        let ok2 := env.startfile_ok url
        ((if ok2 then acc.1 + 1 else acc.1),
         acc.2 ++ [(.popenCall [exe, url], false), (.startfileCall url, ok2)]))
    acc

/-- Model of `LauncherService.launch_browser_urls`: empty URL list → `false` with no
attempt. Otherwise resolve the browser shortcut; if the resolved path is not
an existing `.exe`/`.lnk`, launch the shortcut directly then open every URL
alone; if it is, launch the executable with the first URL and pass each
remaining URL to the executable (startfile fallback per URL); if that first
launch raises, launch the shortcut then open every URL alone (returning
`false` if the shortcut launch also raises). Returns `(result, trace of open
invocations with their outcomes)`. -/
def launch_browser_urls (env : BrowserEnv) (browser_lnk : Str) (urls : List Str) :
    Bool × List (OpenCall × Bool) :=
  match urls with
  | [] => (false, [])
  | u1 :: rest =>
    let exe := env.resolve_lnk browser_lnk
    if (env.path_exists exe && ends_exe_or_lnk exe) = false then
      let bOk := env.popen_ok [browser_lnk]
      let r := open_urls_alone env (u1 :: rest) (0, [(.popenCall [browser_lnk], bOk)])
      (0 < r.1, r.2)
    else
      if env.popen_ok [exe, u1] then
        let r := open_urls_with_exe env exe rest (1, [(.popenCall [exe, u1], true)])
        (0 < r.1, r.2)
      else
        let bOk := env.popen_ok [browser_lnk]
        if bOk = false then
          (false, [(.popenCall [exe, u1], false), (.popenCall [browser_lnk], false)])
        else
          let r := open_urls_alone env (u1 :: rest)
            (0, [(.popenCall [exe, u1], false), (.popenCall [browser_lnk], true)])
          (0 < r.1, r.2)

/-! ### Startup Trigger Sequencer (settings_tab.py) -/

/-- The `StarterSettings` record from config_models.py. -/
structure StarterSettings where
  trigger_selected_on_startup : Bool
  delay_seconds : Nat
deriving DecidableEq, Repr

/-- The fields of `Favourite` (config_models.py) the sequencer consumes. -/
structure Favourite where
  name : Str
  lnk_path : Str
  kind : Str
  selected : Bool
  browser_links : List Str
deriving DecidableEq, Repr

/-- The state `SettingsTab.check_startup_trigger` reads: the idempotency
guard, the `--startup` command-line flag, and the persisted configuration. -/
structure StartupCtx where
  startup_processed : Bool
  is_startup_launch : Bool
  settings : StarterSettings
  favourites : List Favourite
deriving DecidableEq, Repr

/-- What `check_startup_trigger` did: the new guard value, the settings as
persisted afterwards, whether `update_starter_settings` was called (the
migration write), and the scheduled launch (`delay_seconds` paired with the
favourites handed to `launch_favourites`), if any. -/
structure StartupResult where
  startup_processed : Bool
  settings : StarterSettings
  settings_written : Bool
  scheduled : Option (Nat × List Favourite)
deriving DecidableEq, Repr

/-- Model of `SettingsTab.check_startup_trigger`: skip if already processed; skip if
the process was not started with `--startup` (`_is_windows_boot_recent`); if
the persisted trigger setting is `False`, rewrite it to `True` and persist
("migrate old configs"); re-read and bail if still disabled (unreachable);
mark processed; collect the selected favourites; if any, schedule
`launch_favourites` after `delay_seconds`. The autostart check only logs. -/
def check_startup_trigger (ctx : StartupCtx) : StartupResult :=
  if ctx.startup_processed then
    ⟨ctx.startup_processed, ctx.settings, false, none⟩
  else if ctx.is_startup_launch = false then
    ⟨ctx.startup_processed, ctx.settings, false, none⟩
  else
    let migrated := ctx.settings.trigger_selected_on_startup = false
    let settings :=
      if ctx.settings.trigger_selected_on_startup = false then
        { ctx.settings with trigger_selected_on_startup := true }
      else ctx.settings
    if settings.trigger_selected_on_startup = false then
      ⟨ctx.startup_processed, settings, migrated, none⟩
    else
      let selected := ctx.favourites.filter fun f => f.selected
      if selected = [] then ⟨true, settings, migrated, none⟩
      else ⟨true, settings, migrated, some (settings.delay_seconds, selected)⟩

/-- Model of `LauncherService.test_favourite`: dispatch to `launch_browser_urls` for a
browser favourite with links, else to `launch_app`. -/
def test_favourite (aenv : LaunchEnv) (benv : BrowserEnv) (f : Favourite) : Bool :=
  if f.kind = ['b', 'r', 'o', 'w', 's', 'e', 'r'] ∧ f.browser_links ≠ [] then
    (launch_browser_urls benv f.lnk_path f.browser_links).1
  else
    (launch_app aenv f.lnk_path).1

/-- Model of `SettingsTab.launch_favourites`: launch each favourite in order via the
orchestrator; a failed launch is logged and the loop continues. Returns each
favourite paired with its launch outcome. -/
def launch_favourites (aenv : LaunchEnv) (benv : BrowserEnv) (favs : List Favourite) :
    List (Favourite × Bool) :=
  favs.map fun f => (f, test_favourite aenv benv f)

/-! ### Theorems -/

/-- C8: the Change Detector's transitions are exactly
`start_listening` IDLE→RUNNING, `pause` RUNNING→PAUSED, `resume`
PAUSED→RUNNING, `stop_listening` {RUNNING,PAUSED}→IDLE; each legal transition
emits exactly one `clipboard_state_changed` notification, and every lifecycle
operation invoked in any other state is a no-op that changes nothing and
emits nothing. -/
theorem C8_state_machine (svc : ClipboardService) :
    start_listening svc =
      (if svc.state = .IDLE then ({ svc with state := .RUNNING }, some .RUNNING)
       else (svc, none))
    ∧ pause svc =
      (if svc.state = .RUNNING then
        ({ svc with state := .PAUSED, timer_deadline := none }, some .PAUSED)
       else (svc, none))
    ∧ resume svc =
      (if svc.state = .PAUSED then ({ svc with state := .RUNNING }, some .RUNNING)
       else (svc, none))
    ∧ stop_listening svc =
      (if svc.state = .RUNNING ∨ svc.state = .PAUSED then
        ({ svc with state := .IDLE, timer_deadline := none }, some .IDLE)
       else (svc, none)) := by
  obtain ⟨s, p, i, d⟩ := svc
  cases s <;>
    simp [start_listening, pause, resume, stop_listening, set_state]

/-- C5: `launch_app` returns true iff some launch attempt in its fallback
chain reports success (so false only when every attempted fallback fails, and
every failure is folded into the Bool result rather than raised); moreover,
when the given path does not exist but resolves to an existing target and the
privileged-launch call fails, the generic open-file facility (`os.startfile`)
is attempted as fallback. -/
theorem C5_launch_app_fallback_chain (env : LaunchEnv) (p : Str) :
    (launch_app env p).1 = (launch_app env p).2.any (fun a => a.ok)
    ∧ (env.path_exists p = false →
       env.resolve_lnk p ≠ p →
       env.path_exists (env.resolve_lnk p) = true →
       env.shell_execute (env.resolve_lnk p) = false →
       ∃ a ∈ (launch_app env p).2, a.mech = Mech.startfileCall) := by
  constructor
  · simp only [launch_app]
    split_ifs <;> rfl
  · intro h1 h2 h3 h4
    cases h5 : env.startfile (env.resolve_lnk p) <;>
      simp [launch_app, h1, h2, h3, h4, h5]

/-- Environment for the C5 witness: the shortcut path `['P']` is missing, it
resolves to the existing target `['R']`, `ShellExecuteW` always fails, and
`os.startfile` succeeds. -/
def C5env : LaunchEnv :=
  { path_exists := fun s => decide (s = ['R']),
    resolve_lnk := fun _ => ['R'],
    shell_execute := fun _ => false,
    startfile := fun _ => true }

/-- C5 witness: the fallback-chain theorem instantiated at `C5env`. -/
theorem C5_witness :
    (launch_app C5env ['P']).1 = (launch_app C5env ['P']).2.any (fun a => a.ok)
    ∧ ∃ a ∈ (launch_app C5env ['P']).2, a.mech = Mech.startfileCall := by
  have h := C5_launch_app_fallback_chain C5env ['P']
  exact ⟨h.1, h.2 (by decide) (by decide) (by decide) rfl⟩

/-- C7 (amended): `check_startup_trigger` schedules the selected favourites
(after `delay_seconds`) iff the startup check has not already run, the
process was started with the `--startup` flag, and at least one favourite is
selected. The persisted "trigger selected favourites on startup" setting is
NOT a gating condition: a disabled setting is rewritten to enabled before the
check, so it never prevents the launch. `launch_favourites` then attempts
every scheduled favourite in order, regardless of individual failures. -/
theorem C7_startup_trigger_amended (ctx : StartupCtx) (aenv : LaunchEnv)
    (benv : BrowserEnv) (favs : List Favourite) :
    ((check_startup_trigger ctx).scheduled =
      if ctx.startup_processed = false ∧ ctx.is_startup_launch = true
          ∧ ctx.favourites.filter (fun f => f.selected) ≠ [] then
        some (ctx.settings.delay_seconds, ctx.favourites.filter (fun f => f.selected))
      else none)
    ∧ (launch_favourites aenv benv favs).map Prod.fst = favs := by
  constructor
  · obtain ⟨sp, sl, ⟨tr, ds⟩, fs⟩ := ctx
    cases sp <;> cases sl <;> cases tr <;>
      by_cases h4 : fs.filter (fun f => f.selected) = [] <;>
      simp [check_startup_trigger, h4]
  · simp [launch_favourites, List.map_map, Function.comp_def]

/-- A selected app favourite for the startup-trigger scenarios. -/
def fav0 : Favourite :=
  { name := ['n'], lnk_path := ['p'], kind := ['a', 'p', 'p'],
    selected := true, browser_links := [] }

/-- Startup context: not yet processed, started with `--startup`, and the
persisted trigger setting DISABLED, with one selected favourite. -/
def startupCtx0 : StartupCtx :=
  { startup_processed := false, is_startup_launch := true,
    settings := { trigger_selected_on_startup := false, delay_seconds := 7 },
    favourites := [fav0] }

/-- C7 counterexample: with the trigger setting disabled (one of the two
conditions the claim requires), a startup-flagged run still schedules the
selected favourite for launch — refuting "if either condition fails no
favourite is launched". -/
theorem C7_cex :
    startupCtx0.settings.trigger_selected_on_startup = false
    ∧ (check_startup_trigger startupCtx0).scheduled = some (7, [fav0]) := by
  exact ⟨rfl, rfl⟩

/-- C7 witness: the amended characterisation instantiated at `startupCtx0`
(and degenerate orchestrator environments). -/
theorem C7_witness :
    (check_startup_trigger startupCtx0).scheduled =
      (if startupCtx0.startup_processed = false ∧ startupCtx0.is_startup_launch = true
          ∧ startupCtx0.favourites.filter (fun f => f.selected) ≠ [] then
        some (startupCtx0.settings.delay_seconds,
          startupCtx0.favourites.filter (fun f => f.selected))
      else none) := by
  exact (C7_startup_trigger_amended startupCtx0 C5env
    ⟨fun _ => ['R'], fun _ => false, fun _ => false, fun _ => false⟩ []).1

/-- C10: when `check_startup_trigger` runs in a process started with the
startup flag (guard not yet consumed) and the persisted
`trigger_selected_on_startup` is false, it rewrites the stored configuration
to set the trigger to true before proceeding — the migration write happens
and the resulting persisted setting is enabled. -/
theorem C10_trigger_migration (ctx : StartupCtx)
    (h1 : ctx.startup_processed = false)
    (h2 : ctx.is_startup_launch = true)
    (h3 : ctx.settings.trigger_selected_on_startup = false) :
    (check_startup_trigger ctx).settings_written = true
    ∧ (check_startup_trigger ctx).settings.trigger_selected_on_startup = true := by
  unfold check_startup_trigger
  simp [h1, h2, h3]
  split <;> simp

/-- C10 witness: the migration theorem at `startupCtx0`. -/
theorem C10_witness :
    (check_startup_trigger startupCtx0).settings_written = true
    ∧ (check_startup_trigger startupCtx0).settings.trigger_selected_on_startup = true :=
  C10_trigger_migration startupCtx0 rfl rfl rfl

/-- C4 (amended): `list_recent` returns the stored rows newest-first (by the
persisted `created_at` text) bounded by `limit`, and NO fetched row is
excluded: the length is exactly `min limit store.length`, and within the
limit every row — malformed or not — yields an item in the output; a row
whose `created_at` does not parse is not skipped but included with its
timestamp replaced by the current time. -/
theorem C4_list_recent_amended (parse : String → Option Nat) (now : Nat)
    (store : List DbRow) (limit : Nat) :
    (list_recent parse now store limit).length = min limit store.length
    ∧ List.Sorted rowDescLe ((store.insertionSort rowDescLe).take limit)
    ∧ (store.length ≤ limit →
        ∀ r ∈ store, convert_row parse now r ∈ list_recent parse now store limit)
    ∧ (∀ r : DbRow, r.created_at ≠ "" → parse r.created_at = none →
        (convert_row parse now r).created_at = now) := by
  refine ⟨?_, ?_, ?_, ?_⟩
  · simp [list_recent, List.length_insertionSort]
  · exact List.Pairwise.sublist (List.take_sublist _ _)
      (List.sorted_insertionSort rowDescLe store)
  · intro h r hr
    have hlen : (store.insertionSort rowDescLe).length ≤ limit := by
      rw [List.length_insertionSort]; exact h
    rw [list_recent, List.take_of_length_le hlen]
    exact List.mem_map_of_mem _ ((List.mem_insertionSort rowDescLe).mpr hr)
  · intro r h1 h2
    simp [convert_row, h1, h2]

/-- A persisted row whose `created_at` text is unparsable. -/
def badDbRow : DbRow :=
  { id := "id1", content := some "hello", content_hash := some "ha",
    created_at := "garbage", is_pinned := 0 }

/-- A concrete stand-in for the two-format timestamp parse: it accepts only
the text `"2024"`. -/
def toyParse : String → Option Nat := fun s => if s = "2024" then some 2024 else none

/-- C4 counterexample: a row with an unparsable `created_at` is NOT logged
and excluded — `list_recent` returns it, with `created_at` replaced by the
current time (42), refuting "malformed rows are excluded from the returned
sequence". -/
theorem C4_cex :
    toyParse badDbRow.created_at = none
    ∧ list_recent toyParse 42 [badDbRow] 10 =
        [{ id := "id1", content := "hello", content_hash := "ha",
           created_at := 42, is_pinned := false }] := by
  exact ⟨rfl, rfl⟩

/-- C4 witness: the amended theorem instantiated at the malformed singleton
store. -/
theorem C4_witness :
    (list_recent toyParse 42 [badDbRow] 10).length = min 10 [badDbRow].length
    ∧ convert_row toyParse 42 badDbRow ∈ list_recent toyParse 42 [badDbRow] 10
    ∧ (convert_row toyParse 42 badDbRow).created_at = 42 := by
  have h := C4_list_recent_amended toyParse 42 [badDbRow] 10
  exact ⟨h.1, h.2.2.1 (by decide) badDbRow (List.mem_singleton.mpr rfl),
    h.2.2.2 badDbRow (by decide) rfl⟩

/-- C2: capturing content C stores one row; capturing identical content again
within the 3-hour window is discarded (still exactly one row for C); capturing
it again after the window stores a second row (two rows for C, the first
still within retention age); and `check_hash_exists_in_hours` returns true
iff some row with that hash has `created_at >= now - window`. -/
theorem C2_duplicate_suppression (hash : Str → Str) (C : Str) (t0 t1 t2 : Nat)
    (hC : C ≠ [])
    (h1 : t1 - dupWindowMs ≤ t0)
    (h2 : ¬ t2 - dupWindowMs ≤ t0)
    (h3 : t2 - maxAgeMs ≤ t0) :
    countContent (process_pending hash [] t0 (some C)).1 C = 1
    ∧ process_pending hash (process_pending hash [] t0 (some C)).1 t1 (some C) =
        ((process_pending hash [] t0 (some C)).1, none)
    ∧ countContent
        (process_pending hash (process_pending hash [] t0 (some C)).1 t2 (some C)).1 C = 2
    ∧ ∀ (store : List Row) (h : Str) (now w : Nat),
        check_hash_exists_in_hours store h now w = true ↔
          ∃ r ∈ store, r.contentHash = h ∧ now - w ≤ r.createdAt := by
  have hs1 : (process_pending hash [] t0 (some C)).1 = [mkRow hash C t0] := by
    simp [process_pending, hC, check_hash_exists_in_hours, add_text, apply_retention,
      mkRow, Nat.sub_le]
  have h1' : t1 ≤ t0 + dupWindowMs := by omega
  have h2' : ¬ t2 ≤ t0 + dupWindowMs := by omega
  have h3' : t2 ≤ t0 + maxAgeMs := by omega
  refine ⟨?_, ?_, ?_, ?_⟩
  · rw [hs1]
    simp [countContent, mkRow]
  · rw [hs1]
    simp [process_pending, hC, check_hash_exists_in_hours, mkRow, h1']
  · rw [hs1]
    simp [process_pending, hC, check_hash_exists_in_hours, mkRow, h2', add_text,
      apply_retention, Nat.sub_le, h3', Nat.le_add_right, countContent]
  · intro store h now w
    simp [check_hash_exists_in_hours, List.any_eq_true]

/-- C2 witness: the duplicate-suppression theorem at hash = identity,
content `['a']`, capture times 0, 5 (within 3 h) and 10800001 (just past
the 3-hour window of 10800000 ms). -/
theorem C2_witness :
    countContent (process_pending (fun s => s) [] 0 (some ['a'])).1 ['a'] = 1
    ∧ countContent (process_pending (fun s => s)
        (process_pending (fun s => s) [] 0 (some ['a'])).1 10800001 (some ['a'])).1 ['a'] = 2 := by
  have h := C2_duplicate_suppression (fun s => s) ['a'] 0 5 10800001
    (by decide) (by decide) (by decide) (by decide)
  exact ⟨h.1, h.2.2.1⟩

/-- C6 (amended): `launch_browser_urls(browser, [])` returns false without
attempting any launch; with `[u1, u2, u3]` and a valid resolved browser
executable it performs exactly three "open" invocations, but the two
follow-up invocations are not issued for the remaining URL alone: each one
invokes the resolved browser executable with that URL as argument
(`Popen([exe_path, url])`); URL-alone open requests occur only on the
fallback paths. It returns true iff at least one URL was successfully
opened (here, all three). -/
theorem C6_browser_urls_amended (env : BrowserEnv) (b : Str) :
    launch_browser_urls env b [] = (false, [])
    ∧ ∀ u1 u2 u3 : Str,
        (env.path_exists (env.resolve_lnk b) && ends_exe_or_lnk (env.resolve_lnk b)) = true →
        env.popen_ok [env.resolve_lnk b, u1] = true →
        env.popen_ok [env.resolve_lnk b, u2] = true →
        env.popen_ok [env.resolve_lnk b, u3] = true →
        launch_browser_urls env b [u1, u2, u3] =
          (true, [(.popenCall [env.resolve_lnk b, u1], true),
                  (.popenCall [env.resolve_lnk b, u2], true),
                  (.popenCall [env.resolve_lnk b, u3], true)]) := by
  constructor
  · rfl
  · intro u1 u2 u3 hv h1 h2 h3
    simp [launch_browser_urls, open_urls_with_exe, hv, h1, h2, h3]

/-- Browser environment whose shortcut resolves to the existing executable
`c.exe`, with every `Popen` and `os.startfile` call succeeding. -/
def C6env : BrowserEnv :=
  { resolve_lnk := fun _ => ['c', '.', 'e', 'x', 'e'],
    path_exists := fun s => decide (s = ['c', '.', 'e', 'x', 'e']),
    popen_ok := fun _ => true,
    startfile_ok := fun _ => true }

/-- C6 counterexample: on the primary path the three open invocations are
`[exe, u1]`, `[exe, u2]`, `[exe, u3]` — no invocation is issued for a
remaining URL alone, refuting "two standalone open requests each issued for
a remaining URL alone". -/
theorem C6_cex :
    (launch_browser_urls C6env ['b'] [['u', '1'], ['u', '2'], ['u', '3']]).2.map Prod.fst =
      [OpenCall.popenCall [['c', '.', 'e', 'x', 'e'], ['u', '1']],
       OpenCall.popenCall [['c', '.', 'e', 'x', 'e'], ['u', '2']],
       OpenCall.popenCall [['c', '.', 'e', 'x', 'e'], ['u', '3']]]
    ∧ ∀ c ∈ (launch_browser_urls C6env ['b'] [['u', '1'], ['u', '2'], ['u', '3']]).2,
        c.1 ≠ OpenCall.popenCall [['u', '2']] := by
  decide

/-- C6 witness: the amended theorem instantiated at `C6env`. -/
theorem C6_witness :
    launch_browser_urls C6env ['b'] [] = (false, [])
    ∧ launch_browser_urls C6env ['b'] [['u', '1'], ['u', '2'], ['u', '3']] =
        (true, [(.popenCall [['c', '.', 'e', 'x', 'e'], ['u', '1']], true),
                (.popenCall [['c', '.', 'e', 'x', 'e'], ['u', '2']], true),
                (.popenCall [['c', '.', 'e', 'x', 'e'], ['u', '3']], true)]) := by
  have h := C6_browser_urls_amended C6env ['b']
  exact ⟨h.1, h.2 _ _ _ (by decide) rfl rfl rfl⟩

/-- The retention pass never leaves more than `maxItems` rows. -/
theorem length_apply_retention_le (store : List Row) (now mi ma : Nat) :
    (apply_retention store now mi ma).length ≤ mi := by
  by_cases h : mi < store.length
  · have hres : apply_retention store now mi ma =
        ((store.insertionSort rowLe).drop (store.length - mi)).filter
          (fun r => decide (now - ma ≤ r.createdAt)) := by
      simp only [apply_retention]
      rw [if_pos h]
    rw [hres]
    refine le_trans (List.length_filter_le _ _) ?_
    rw [List.length_drop, List.length_insertionSort]
    omega
  · have hres : apply_retention store now mi ma =
        store.filter (fun r => decide (now - ma ≤ r.createdAt)) := by
      simp only [apply_retention]
      rw [if_neg h]
    rw [hres]
    refine le_trans (List.length_filter_le _ _) ?_
    omega

/-- Every row surviving the retention pass is within the age cutoff. -/
theorem mem_apply_retention_age (store : List Row) (now mi ma : Nat) :
    ∀ r ∈ apply_retention store now mi ma, now - ma ≤ r.createdAt := by
  intro r hr
  have : apply_retention store now mi ma =
      (if mi < store.length then
        (store.insertionSort rowLe).drop (store.length - mi)
       else store).filter (fun r => decide (now - ma ≤ r.createdAt)) := by
    simp only [apply_retention]
  rw [this] at hr
  exact of_decide_eq_true (List.mem_filter.mp hr).2

/-- Every row the retention pass deletes is either past the age cutoff or is
one of the oldest rows: its `created_at` is at most that of every survivor. -/
theorem removed_apply_retention (store : List Row) (now mi ma : Nat) :
    ∀ r ∈ store, r ∉ apply_retention store now mi ma →
      r.createdAt < now - ma
      ∨ ∀ s ∈ apply_retention store now mi ma, r.createdAt ≤ s.createdAt := by
  intro r hr hn
  by_cases hage : now - ma ≤ r.createdAt
  · by_cases hcnt : mi < store.length
    · have hres : apply_retention store now mi ma =
          ((store.insertionSort rowLe).drop (store.length - mi)).filter
            (fun r => decide (now - ma ≤ r.createdAt)) := by
        simp only [apply_retention]
        rw [if_pos hcnt]
      have hr' : r ∈ store.insertionSort rowLe := (List.mem_insertionSort rowLe).mpr hr
      rw [← List.take_append_drop (store.length - mi) (store.insertionSort rowLe)] at hr'
      rcases List.mem_append.mp hr' with htake | hdrop
      · right
        intro s hs
        rw [hres] at hs
        have hsdrop := List.mem_of_mem_filter hs
        have hsorted : (store.insertionSort rowLe).Pairwise rowLe :=
          List.sorted_insertionSort rowLe store
        rw [← List.take_append_drop (store.length - mi) (store.insertionSort rowLe)]
          at hsorted
        exact (List.pairwise_append.mp hsorted).2.2 r htake s hsdrop
      · exact absurd (hres ▸ List.mem_filter.mpr ⟨hdrop, decide_eq_true hage⟩) hn
    · have hres : apply_retention store now mi ma =
          store.filter (fun r => decide (now - ma ≤ r.createdAt)) := by
        simp only [apply_retention]
        rw [if_neg hcnt]
      exact absurd (hres ▸ List.mem_filter.mpr ⟨hr, decide_eq_true hage⟩) hn
  · left
    omega

/-- Inserting into a store already holding exactly the cap (500 rows, all
within the age window, in `created_at` order) deletes exactly the oldest row:
the 501-row retention pass keeps the 500 newest. -/
theorem add_text_at_cap (hash : Str → Str) (store : List Row) (now : Nat) (c : Str)
    (hlen : store.length = 500)
    (hpair : List.Pairwise rowLe (store ++ [mkRow hash c now]))
    (hage : ∀ r ∈ store, now - maxAgeMs ≤ r.createdAt) :
    add_text hash store now c = store.tail ++ [mkRow hash c now] := by
  have hsorted : List.Sorted rowLe (store ++ [mkRow hash c now]) := hpair
  have hsort_eq : (store ++ [mkRow hash c now]).insertionSort rowLe
      = store ++ [mkRow hash c now] := hsorted.insertionSort_eq
  have hres : apply_retention (store ++ [mkRow hash c now]) now 500 maxAgeMs =
      (((store ++ [mkRow hash c now]).insertionSort rowLe).drop
        ((store ++ [mkRow hash c now]).length - 500)).filter
        (fun r => decide (now - maxAgeMs ≤ r.createdAt)) := by
    simp only [apply_retention]
    rw [if_pos (by simp [hlen])]
  have hk : (store ++ [mkRow hash c now]).length - 500 = 1 := by simp [hlen]
  rw [add_text, hres, hsort_eq, hk]
  obtain ⟨h0, t, rfl⟩ : ∃ h0 t, store = h0 :: t := by
    cases store with
    | nil => simp at hlen
    | cons a l => exact ⟨a, l, rfl⟩
  simp only [List.cons_append, List.drop_succ_cons, List.drop_zero, List.tail_cons]
  rw [List.filter_eq_self]
  intro a ha
  rcases List.mem_append.mp ha with h | h
  · exact decide_eq_true (hage a (List.mem_cons_of_mem _ h))
  · rw [List.mem_singleton.mp h]
    exact decide_eq_true (Nat.sub_le _ _)

/-- C3: after every `add_text` the retention pass has run and the store
satisfies both caps — at most `max_items` rows remain, none older than the
age cutoff, and any deleted row was either past the age cutoff or among the
oldest (its `created_at` at most every survivor's); in particular, adding to
a store already at the 500-row cap (all rows fresh and in timestamp order)
leaves exactly 500 rows with precisely the oldest-by-`created_at` row
removed. -/
theorem C3_retention (hash : Str → Str) (store : List Row) (now mi ma : Nat) (c : Str) :
    (apply_retention store now mi ma).length ≤ mi
    ∧ (∀ r ∈ apply_retention store now mi ma, now - ma ≤ r.createdAt)
    ∧ (∀ r ∈ store, r ∉ apply_retention store now mi ma →
        r.createdAt < now - ma
        ∨ ∀ s ∈ apply_retention store now mi ma, r.createdAt ≤ s.createdAt)
    ∧ (add_text hash store now c).length ≤ 500
    ∧ (∀ r ∈ add_text hash store now c, now - maxAgeMs ≤ r.createdAt)
    ∧ (store.length = 500 →
        List.Pairwise rowLe (store ++ [mkRow hash c now]) →
        (∀ r ∈ store, now - maxAgeMs ≤ r.createdAt) →
        add_text hash store now c = store.tail ++ [mkRow hash c now]
        ∧ (add_text hash store now c).length = 500) := by
  refine ⟨length_apply_retention_le store now mi ma,
    mem_apply_retention_age store now mi ma,
    removed_apply_retention store now mi ma,
    length_apply_retention_le _ now 500 maxAgeMs,
    mem_apply_retention_age _ now 500 maxAgeMs,
    fun hlen hpair hage => ⟨add_text_at_cap hash store now c hlen hpair hage, ?_⟩⟩
  rw [add_text_at_cap hash store now c hlen hpair hage]
  have : store.tail.length = 499 := by
    rw [List.length_tail, hlen]
  simp [this]

/-- A store already holding exactly 500 rows with ascending fresh
timestamps. -/
def C3store : List Row := (List.range 500).map fun i =>
  { content := ['a'], contentHash := ['a'], createdAt := 1000000 + i,
    sourceApp := none, isPinned := false }

/-- The 500-row store holds rows with ascending timestamps. -/
theorem C3store_pairwise :
    List.Pairwise rowLe (C3store ++ [mkRow (fun s => s) ['b'] 1000500]) := by
  rw [List.pairwise_append]
  refine ⟨?_, List.pairwise_singleton _ _, ?_⟩
  · rw [C3store, List.pairwise_map]
    exact (List.pairwise_lt_range 500).imp (fun h => by simp only [rowLe]; omega)
  · intro x hx y hy
    rw [C3store, List.mem_map] at hx
    obtain ⟨i, hi, rfl⟩ := hx
    rw [List.mem_singleton.mp hy]
    have : i < 500 := List.mem_range.mp hi
    simp only [rowLe, mkRow]
    omega

/-- Every row of the 500-row store is within the 30-day age window. -/
theorem C3store_fresh : ∀ r ∈ C3store, 1000500 - maxAgeMs ≤ r.createdAt := by
  intro r _
  have h0 : (1000500 : Nat) - maxAgeMs = 0 := by
    rw [maxAgeMs]
  exact h0 ▸ Nat.zero_le _

/-- C3 witness: the retention theorem at the 500-row store: the 501st insert
leaves exactly 500 rows and removes precisely the oldest row. -/
theorem C3_witness :
    add_text (fun s => s) C3store 1000500 ['b']
      = C3store.tail ++ [mkRow (fun s => s) ['b'] 1000500]
    ∧ (add_text (fun s => s) C3store 1000500 ['b']).length = 500 := by
  exact (C3_retention (fun s => s) C3store 1000500 500 maxAgeMs ['b']).2.2.2.2.2
    (by rw [C3store]; simp) C3store_pairwise C3store_fresh

/-- A qualifying clipboard-change event processed while RUNNING with the
ignore flag clear and no debounce deadline due yet: the timer does not fire,
and the handler stashes the trimmed text and restarts the 150 ms timer. -/
theorem step_no_fire (hash : Str → Str) (st : PipeState) (t : Nat) (x : Str)
    (hrun : st.svc.state = .RUNNING)
    (hig : st.svc.ignore_next = false)
    (hdl : ∀ dl, st.svc.timer_deadline = some dl → t < dl)
    (hq1 : pyStrip x ≠ [])
    (hq2 : x.length ≤ 10000) :
    step_event hash st (t, some x) =
      { st with svc := { st.svc with
          pending_content := some (pyStrip x),
          timer_deadline := some (t + debounceMs) } } := by
  have hxne : x ≠ [] := by
    intro h
    exact hq1 (by rw [h]; rfl)
  have hst1 : (match st.svc.timer_deadline with
      | some dl => if dl ≤ t then fire_timer hash st dl else st
      | none => st) = st := by
    cases h : st.svc.timer_deadline with
    | none => rfl
    | some dl =>
      have := hdl dl h
      simp only [if_neg (by omega : ¬ dl ≤ t)]
  simp only [step_event]
  rw [hst1]
  simp [on_clipboard_changed, hrun, hig, hxne, hq1, Nat.not_lt.mpr hq2]

/-- A burst of qualifying events, each arriving strictly within 150 ms of the
previous one, while RUNNING with no timer due before the first event: no
debounce timer fires during the burst, so the store and the insert log are
untouched, and afterwards the pending content is the trimmed text of the last
event with the timer set to fire 150 ms after it. -/
theorem run_burst (hash : Str → Str) :
    ∀ (rest : List (Nat × Str)) (e : Nat × Str) (st : PipeState),
    st.svc.state = .RUNNING →
    st.svc.ignore_next = false →
    (∀ dl, st.svc.timer_deadline = some dl → e.1 < dl) →
    (∀ x ∈ e :: rest, pyStrip x.2 ≠ [] ∧ x.2.length ≤ 10000) →
    List.Chain' (fun a b : Nat × Str => b.1 < a.1 + debounceMs) (e :: rest) →
    run_events hash st ((e :: rest).map fun p => (p.1, some p.2)) =
      { st with svc := { st.svc with
          pending_content := some (pyStrip ((e :: rest).getLast (List.cons_ne_nil e rest)).2),
          timer_deadline :=
            some (((e :: rest).getLast (List.cons_ne_nil e rest)).1 + debounceMs) } } := by
  intro rest
  induction rest with
  | nil =>
    intro e st h1 h2 h3 hq _
    have hstep := step_no_fire hash st e.1 e.2 h1 h2 h3
      (hq e (List.mem_cons_self e [])).1 (hq e (List.mem_cons_self e [])).2
    simp only [List.map_cons, List.map_nil, run_events, List.foldl_cons, List.foldl_nil]
    rw [hstep]
    simp
  | cons e' rest' ih =>
    intro e st h1 h2 h3 hq hch
    have hstep := step_no_fire hash st e.1 e.2 h1 h2 h3
      (hq e (List.mem_cons_self e _)).1 (hq e (List.mem_cons_self e _)).2
    have hch' := List.chain'_cons.mp hch
    have hih := ih e'
      { st with svc := { st.svc with
          pending_content := some (pyStrip e.2),
          timer_deadline := some (e.1 + debounceMs) } }
      h1 h2
      (by
        intro dl hdl
        have h' : some (e.1 + debounceMs) = some dl := hdl
        have := (Option.some.inj h').symm
        have := hch'.1
        omega)
      (fun x hx => hq x (List.mem_cons_of_mem e hx))
      hch'.2
    calc run_events hash st ((e :: e' :: rest').map fun p => (p.1, some p.2))
        = run_events hash (step_event hash st (e.1, some e.2))
            ((e' :: rest').map fun p => (p.1, some p.2)) := rfl
      _ = run_events hash
            { st with svc := { st.svc with
                pending_content := some (pyStrip e.2),
                timer_deadline := some (e.1 + debounceMs) } }
            ((e' :: rest').map fun p => (p.1, some p.2)) := by rw [hstep]
      _ = { st with svc := { st.svc with
              pending_content :=
                some (pyStrip ((e' :: rest').getLast (List.cons_ne_nil e' rest')).2),
              timer_deadline :=
                some (((e' :: rest').getLast (List.cons_ne_nil e' rest')).1
                  + debounceMs) } } := hih
      _ = { st with svc := { st.svc with
              pending_content :=
                some (pyStrip ((e :: e' :: rest').getLast (List.cons_ne_nil e _)).2),
              timer_deadline :=
                some (((e :: e' :: rest').getLast (List.cons_ne_nil e _)).1
                  + debounceMs) } } := by
            rw [List.getLast_cons (List.cons_ne_nil e' rest')]

/-- C1 (amended): for a burst of qualifying clipboard-change events received
while RUNNING (ignore flag clear, no timer pending), each arriving within
150 ms of the previous one, no insert happens during the burst, and when the
debounce timer fires after the burst exactly one Content Store insert occurs
with the trimmed text of the LAST event — provided that trimmed content's
hash is not already in the store within the 3-hour duplicate window (without
that proviso the pending content is discarded and no insert occurs). -/
theorem C1_debounce_amended (hash : Str → Str) (e : Nat × Str)
    (rest : List (Nat × Str)) (st : PipeState)
    (hrun : st.svc.state = .RUNNING)
    (hig : st.svc.ignore_next = false)
    (hdl : st.svc.timer_deadline = none)
    (hq : ∀ x ∈ e :: rest, pyStrip x.2 ≠ [] ∧ x.2.length ≤ 10000)
    (hch : List.Chain' (fun a b : Nat × Str => b.1 < a.1 + debounceMs) (e :: rest))
    (hnodup : check_hash_exists_in_hours st.store
        (hash (pyStrip ((e :: rest).getLast (List.cons_ne_nil e rest)).2))
        (((e :: rest).getLast (List.cons_ne_nil e rest)).1 + debounceMs)
        dupWindowMs = false) :
    (flush_timer hash (run_events hash st ((e :: rest).map fun p => (p.1, some p.2)))).inserts
      = st.inserts ++ [pyStrip ((e :: rest).getLast (List.cons_ne_nil e rest)).2]
    ∧ (flush_timer hash (run_events hash st ((e :: rest).map fun p => (p.1, some p.2)))).store
      = add_text hash st.store
          (((e :: rest).getLast (List.cons_ne_nil e rest)).1 + debounceMs)
          (pyStrip ((e :: rest).getLast (List.cons_ne_nil e rest)).2) := by
  have hburst := run_burst hash rest e st hrun hig
    (fun dl h => by rw [hdl] at h; cases h) hq hch
  rw [hburst]
  have hqlast : pyStrip ((e :: rest).getLast (List.cons_ne_nil e rest)).2 ≠ [] :=
    (hq _ (List.getLast_mem (List.cons_ne_nil e rest))).1
  constructor <;>
    simp [flush_timer, fire_timer, process_pending, hqlast, hnodup]

/-- Detector state for the C1 scenarios: RUNNING, nothing pending, over a
store that already holds the hash of `['a']` captured at time 0. -/
def C1st : PipeState :=
  { svc := { state := .RUNNING, pending_content := none,
             ignore_next := false, timer_deadline := none },
    store := [{ content := ['a'], contentHash := ['a'], createdAt := 0,
                sourceApp := none, isPinned := false }],
    inserts := [] }

/-- C1 counterexample: a burst of one fully qualifying event (`['a']`:
non-blank after trim, within the size bound, received while RUNNING) produces
ZERO Content Store inserts, because the trimmed content's hash already exists
in the store within the 3-hour duplicate window — refuting "exactly one
Content Store insert occurs after the burst ends". -/
theorem C1_cex :
    (pyStrip ['a'] ≠ [] ∧ (['a'] : Str).length ≤ 10000
      ∧ C1st.svc.state = .RUNNING ∧ C1st.svc.ignore_next = false)
    ∧ (flush_timer (fun s => s) (run_events (fun s => s) C1st [(100, some ['a'])])).inserts
        = [] := by
  exact ⟨by decide, by decide⟩

/-- Detector state for the C1 witness: RUNNING with an empty store. -/
def C1wst : PipeState :=
  { svc := { state := .RUNNING, pending_content := none,
             ignore_next := false, timer_deadline := none },
    store := [], inserts := [] }

/-- C1 witness: the amended debounce theorem at a concrete two-event burst
(times 100 and 200 ms, within 150 ms of each other) over an empty store: one
insert with the trimmed text of the last event. -/
theorem C1_witness :
    (flush_timer (fun s => s)
      (run_events (fun s => s) C1wst [(100, some ['x']), (200, some [' ', 'y'])])).inserts
      = [['y']] := by
  have h := C1_debounce_amended (fun s => s) (100, ['x']) [(200, [' ', 'y'])] C1wst
    rfl rfl rfl (by decide)
    (List.chain'_cons.mpr ⟨by decide, List.chain'_singleton _⟩)
    (by decide)
  exact h.1.trans (by decide)

/-- Trimming never lengthens a string. -/
theorem pyStrip_length_le (s : Str) : (pyStrip s).length ≤ s.length := by
  unfold pyStrip dropWs
  calc ((s.dropWhile fun c => c.isWhitespace).reverse.dropWhile
          fun c => c.isWhitespace).reverse.length
      = ((s.dropWhile fun c => c.isWhitespace).reverse.dropWhile
          fun c => c.isWhitespace).length := List.length_reverse _
    _ ≤ (s.dropWhile fun c => c.isWhitespace).reverse.length :=
        (List.dropWhile_sublist _).length_le
    _ = (s.dropWhile fun c => c.isWhitespace).length := List.length_reverse _
    _ ≤ s.length := (List.dropWhile_sublist _).length_le

/-- Invariant on the detector's pending slot: any stashed content is
non-empty and within the 10000-character bound. -/
def pendingOk (p : Option Str) : Prop :=
  ∀ c, p = some c → c ≠ [] ∧ c.length ≤ 10000

/-- Invariant on the insert log: every stored content has 1 to 10000
characters. -/
def insertsOk (l : List Str) : Prop :=
  ∀ c ∈ l, 1 ≤ c.length ∧ c.length ≤ 10000

/-- The clipboard-change handler preserves both invariants: it only ever
stashes trimmed text that passed the emptiness and size filters. -/
theorem inv_on_changed (st : PipeState) (now : Nat) (txt : Option Str)
    (hp : pendingOk st.svc.pending_content) (hi : insertsOk st.inserts) :
    pendingOk (on_clipboard_changed st now txt).svc.pending_content
    ∧ insertsOk (on_clipboard_changed st now txt).inserts := by
  unfold on_clipboard_changed
  split
  next => exact ⟨hp, hi⟩
  next =>
    split
    next => exact ⟨hp, hi⟩
    next =>
      split
      next => exact ⟨hp, hi⟩
      next t =>
        split
        next => exact ⟨hp, hi⟩
        next h3 =>
          split
          next => exact ⟨hp, hi⟩
          next h4 =>
            refine ⟨?_, hi⟩
            intro c hc
            have hc' : c = pyStrip t := (Option.some.inj hc).symm
            subst hc'
            refine ⟨fun h => h3 (Or.inr h), ?_⟩
            exact le_trans (pyStrip_length_le t) (by omega)

/-- Firing the debounce timer preserves both invariants: the only content it
can insert is the pending one, which the pending invariant bounds. -/
theorem inv_fire (hash : Str → Str) (st : PipeState) (now : Nat)
    (hp : pendingOk st.svc.pending_content) (hi : insertsOk st.inserts) :
    pendingOk (fire_timer hash st now).svc.pending_content
    ∧ insertsOk (fire_timer hash st now).inserts := by
  unfold fire_timer process_pending
  cases hpc : st.svc.pending_content with
  | none =>
    simp only [hpc]
    exact ⟨fun c hc => (by cases hc), (by simpa using hi)⟩
  | some c =>
    have hco := hp c hpc
    simp only [hpc]
    rw [if_neg hco.1]
    by_cases hdup : check_hash_exists_in_hours st.store (hash c) now dupWindowMs
    · rw [if_pos hdup]
      exact ⟨fun c hc => (by cases hc), (by simpa using hi)⟩
    · rw [if_neg hdup]
      refine ⟨fun c hc => (by cases hc), ?_⟩
      intro d hd
      rcases List.mem_append.mp hd with h | h
      · exact hi d h
      · have h' : d ∈ [c] := by
          rw [if_neg hco.1] at h
          exact h
        rw [List.mem_singleton.mp h']
        exact ⟨Nat.one_le_iff_ne_zero.mpr
          (fun h0 => hco.1 (List.length_eq_zero.mp h0)), hco.2⟩

/-- One event-loop step (possible timer fire, then the change handler)
preserves both invariants. -/
theorem inv_step (hash : Str → Str) (st : PipeState) (e : Nat × Option Str)
    (hp : pendingOk st.svc.pending_content) (hi : insertsOk st.inserts) :
    pendingOk (step_event hash st e).svc.pending_content
    ∧ insertsOk (step_event hash st e).inserts := by
  unfold step_event
  cases hdl : st.svc.timer_deadline with
  | none =>
    simp only [hdl]
    exact inv_on_changed st e.1 e.2 hp hi
  | some dl =>
    simp only [hdl]
    by_cases h : dl ≤ e.1
    · simp only [h, if_true]
      have hf := inv_fire hash st dl hp hi
      exact inv_on_changed _ e.1 e.2 hf.1 hf.2
    · simp only [h, if_false]
      exact inv_on_changed st e.1 e.2 hp hi

/-- Any event sequence preserves both invariants. -/
theorem inv_run (hash : Str → Str) :
    ∀ (evs : List (Nat × Option Str)) (st : PipeState),
    pendingOk st.svc.pending_content → insertsOk st.inserts →
    pendingOk (run_events hash st evs).svc.pending_content
    ∧ insertsOk (run_events hash st evs).inserts := by
  intro evs
  induction evs with
  | nil => exact fun st hp hi => ⟨hp, hi⟩
  | cons e t ih =>
    intro st hp hi
    have hstep := inv_step hash st e hp hi
    exact ih (step_event hash st e) hstep.1 hstep.2

/-- C9: a clipboard-change event whose text is empty/whitespace-only after
trimming or longer than 10000 characters leaves the pending slot, the timer,
the store and the insert log untouched (so it can never produce an insert);
and every content stored by the capture pipeline — any event sequence run
from a state with nothing pending and nothing inserted, followed by the final
timer fire — has between 1 and 10000 characters. -/
theorem C9_size_bounds :
    (∀ (st : PipeState) (now : Nat) (t : Str),
      (pyStrip t = [] ∨ 10000 < t.length) →
      (on_clipboard_changed st now (some t)).svc.pending_content
          = st.svc.pending_content
        ∧ (on_clipboard_changed st now (some t)).svc.timer_deadline
          = st.svc.timer_deadline
        ∧ (on_clipboard_changed st now (some t)).store = st.store
        ∧ (on_clipboard_changed st now (some t)).inserts = st.inserts)
    ∧ (∀ (hash : Str → Str) (st : PipeState) (evs : List (Nat × Option Str)),
      st.svc.pending_content = none → st.inserts = [] →
      ∀ c ∈ (flush_timer hash (run_events hash st evs)).inserts,
        1 ≤ c.length ∧ c.length ≤ 10000) := by
  constructor
  · intro st now t hbad
    unfold on_clipboard_changed
    split
    next => exact ⟨rfl, rfl, rfl, rfl⟩
    next =>
      split
      next => exact ⟨rfl, rfl, rfl, rfl⟩
      next =>
        split
        next => exact ⟨rfl, rfl, rfl, rfl⟩
        next t' heq =>
          have ht : t' = t := (Option.some.inj heq).symm
          subst ht
          split
          next => exact ⟨rfl, rfl, rfl, rfl⟩
          next h3 =>
            split
            next => exact ⟨rfl, rfl, rfl, rfl⟩
            next h4 =>
              exfalso
              rcases hbad with hb | hb
              · exact h3 (Or.inr hb)
              · exact h4 hb
  · intro hash st evs hpnone hinil
    have hp : pendingOk st.svc.pending_content := by
      intro c hc
      rw [hpnone] at hc
      cases hc
    have hi : insertsOk st.inserts := by
      intro c hc
      rw [hinil] at hc
      cases hc
    have hrun := inv_run hash evs st hp hi
    have hfinal : insertsOk (flush_timer hash (run_events hash st evs)).inserts := by
      unfold flush_timer
      cases hdl : (run_events hash st evs).svc.timer_deadline with
      | none => simpa only [hdl] using hrun.2
      | some dl =>
        simp only [hdl]
        exact (inv_fire hash _ dl hrun.1 hrun.2).2
    exact hfinal

/-- C9 witness: the bounds theorem at concrete inputs — a whitespace-only
event leaves everything unchanged, and the insert produced by a qualifying
event run from `C1wst` is within the 1–10000 bound. -/
theorem C9_witness :
    ((on_clipboard_changed C1wst 5 (some [' '])).svc.pending_content
        = C1wst.svc.pending_content
      ∧ (on_clipboard_changed C1wst 5 (some [' '])).inserts = C1wst.inserts)
    ∧ (1 ≤ (['a'] : Str).length ∧ (['a'] : Str).length ≤ 10000) := by
  have h := C9_size_bounds
  have h1 := h.1 C1wst 5 [' '] (Or.inl (by decide))
  have h2 := h.2 (fun s => s) C1wst [(0, some ['a'])] rfl rfl ['a']
    (by decide)
  exact ⟨⟨h1.1, h1.2.2.2⟩, h2⟩

end StarterApp
